import Mathlib

/-!
# Verification of the zelene-gateway bridge and scheduling subsystem

A shallow embedding, in Lean 4, of the core operations of the zelene-gateway
repository:

* `src/utils/mqtt-pattern.ts` — topic-pattern validation and matching,
* `src/utils/mqtt-client.ts` — the per-device broker-connection registry,
* `src/services/mqtt.service.ts` — telemetry key discovery and ingestion,
* `src/services/publication.service.ts` — the scheduled-publication state
  machine (`updateScheduledPublication`, `cancelScheduledPublication`,
  `processScheduledPublications`),
* `src/services/scheduler.service.ts` — the re-entrancy guard around the
  due-processing pass.

JavaScript strings are modelled as Lean `String`s; the JavaScript
`String.prototype.split` with a one-character separator is modelled by the
structurally recursive `splitOnChar` below, which agrees with the JavaScript
semantics (in particular `"".split("/")` is `[""]`).  Persistent store tables
are modelled as Lean lists of records, `Promise` rejection as `Except`, and
external collaborators (the broker delivery path, `Date` parsing) as function
parameters.
-/

namespace ZeleneGateway

/-! ## JavaScript string primitives -/

/-- `String.prototype.split(sep)` for a one-character separator, on the
character list of the string.  Splitting the empty list yields `[[]]`,
matching JavaScript's `"".split("/") === [""]`. -/
def splitOnChar (sep : Char) : List Char → List (List Char)
  | [] => [[]]
  | c :: rest =>
      let r := splitOnChar sep rest
      if c == sep then [] :: r
      else
        match r with
        | seg :: segs => (c :: seg) :: segs
        | [] => [[c]]

/-- `String.prototype.split(sep)` returning strings. -/
def jsSplit (s : String) (sep : Char) : List String :=
  (splitOnChar sep s.toList).map (fun cs => ⟨cs⟩)

/-- `String.prototype.trim()`: strips leading and trailing whitespace. -/
def jsTrim (s : String) : String :=
  ⟨((s.toList.dropWhile Char.isWhitespace).reverse.dropWhile Char.isWhitespace).reverse⟩

/-! ## Topic matcher (`src/utils/mqtt-pattern.ts`) -/

/-- The character class admitted by `validateTopicPattern`'s regular-expression
check `[^a-zA-Z0-9/#+]` (a character outside this class invalidates the
pattern). -/
def isAllowedPatternChar (c : Char) : Bool :=
  c.isAlphanum || c == '/' || c == '#' || c == '+'

/-- The indexed per-segment loop of `validateTopicPattern`: a segment that
contains `+` without being exactly `+` is invalid, and a segment that is
exactly `#` is invalid unless it is the last segment (`i = n - 1` where `n`
is the total number of segments). -/
def wildcardSegmentsOk : List (List Char) → Nat → Nat → Bool
  | [], _, _ => true
  | seg :: rest, i, n =>
      if seg.contains '+' && seg != ['+'] then false
      else if seg == ['#'] && i != n - 1 then false
      else wildcardSegmentsOk rest (i + 1) n

/-- `validateTopicPattern` from `src/utils/mqtt-pattern.ts`: rejects
empty/blank strings and invalid characters, then runs the per-segment
wildcard checks on the `/`-split segments. -/
def validateTopicPattern (topicPath : String) : Bool :=
  if topicPath.toList.all Char.isWhitespace then false
  else if topicPath.toList.any (fun c => !isAllowedPatternChar c) then false
  else
    let segments := splitOnChar '/' topicPath.toList
    wildcardSegmentsOk segments 0 segments.length

/-- The shared segment loop of `matchTopic`: each pattern segment must be `+`
or equal the topic segment at the same index.  In the `#` branch the topic
may be longer than the pattern prefix (the trailing `[]` case is unreachable
there thanks to the preceding length guard); in the exact branch the two
lists have equal length when the loop is entered. -/
def segLoop : List (List Char) → List (List Char) → Bool
  | [], _ => true
  | p :: ps, t :: ts => (p == ['+'] || p == t) && segLoop ps ts
  | _ :: _, [] => false

/-- `matchTopic` from `src/utils/mqtt-pattern.ts`. -/
def matchTopic (pattern topic : String) : Bool :=
  if pattern == topic then true
  else
    let patternSegments := splitOnChar '/' pattern.toList
    let topicSegments := splitOnChar '/' topic.toList
    if patternSegments.getLast? == some ['#'] then
      let patternWithoutHash := patternSegments.dropLast
      if topicSegments.length < patternWithoutHash.length then false
      else segLoop patternWithoutHash topicSegments
    else
      if patternSegments.length != topicSegments.length then false
      else segLoop patternSegments topicSegments

/-- `hasWildcards` from `src/utils/mqtt-pattern.ts`. -/
def hasWildcards (topic : String) : Bool :=
  topic.toList.contains '+' || topic.toList.contains '#'

/-- The specification's notion of a wildcard character embedded inside a
longer segment token: the segment contains `+` or `#` but is neither of the
bare wildcards. -/
def segmentHasEmbeddedWildcard (seg : List Char) : Bool :=
  (seg.contains '+' || seg.contains '#') && seg != ['+'] && seg != ['#']

/-- A pattern with some embedded-wildcard segment. -/
def hasEmbeddedWildcardSegment (p : String) : Bool :=
  (splitOnChar '/' p.toList).any segmentHasEmbeddedWildcard

/-- Decidable equality on `Except`, used to evaluate service results on
concrete inputs. -/
instance {ε α : Type _} [DecidableEq ε] [DecidableEq α] : DecidableEq (Except ε α) := fun a b =>
  match a, b with
  | .error e, .error e' =>
      if h : e = e' then .isTrue (h ▸ rfl) else .isFalse (fun hc => h (by injection hc))
  | .error _, .ok _ => .isFalse (fun hc => Except.noConfusion hc)
  | .ok _, .error _ => .isFalse (fun hc => Except.noConfusion hc)
  | .ok v, .ok v' =>
      if h : v = v' then .isTrue (h ▸ rfl) else .isFalse (fun hc => h (by injection hc))

/-! ## Scheduled-publication data model (`prisma ScheduledPublication`) -/

/-- The `status` column of a scheduled publication. -/
inductive PubStatus where
  | PENDING | PUBLISHED | FAILED | CANCELLED
deriving DecidableEq, Repr

/-- A row of the `ScheduledPublication` table.  `topicId` is the foreign key
into the `Topic` table; `scheduledTime` and `publishedAt` are instants
(milliseconds since the epoch, as JavaScript `Date` values). -/
structure ScheduledPublication where
  id : String
  deviceId : String
  topicId : Nat
  payload : String
  qos : Int
  retain : Bool
  scheduledTime : Int
  status : PubStatus
  publishedAt : Option Int
deriving DecidableEq, Repr

/-- A row of the `Topic` table (the fields consulted by the publication
service). -/
structure Topic where
  id : Nat
  topicPath : String
  isPublic : Bool
deriving DecidableEq, Repr

/-- The `Topic` table together with the id sequence used for newly created
rows. -/
structure TopicEnv where
  topics : List Topic
  nextTopicId : Nat
deriving DecidableEq, Repr

/-- The stable error kinds thrown by the publication service (the source
throws `Error` objects; the constructor records the throw site's kind and
the constructor argument its message). -/
inductive ServiceError where
  | notFound (msg : String)
  | invalidInput (msg : String)
  | invalidState (msg : String)
  | notPublic (msg : String)
deriving DecidableEq, Repr

/-! ## `getOrCreateTopic` (`src/services/subscription.service.ts`) -/

/-- `getOrCreateTopic`: finds the topic row whose `topicPath` equals the
trimmed path, or creates one (with `isPublic := true`,
`allowSubscribe := true`) after validating wildcard patterns.  Returns the
topic and the possibly-extended table. -/
def getOrCreateTopic (topicPath : String) (env : TopicEnv) :
    Except ServiceError Topic × TopicEnv :=
  if jsTrim topicPath == "" then
    (.error (.invalidInput "Topic path cannot be empty"), env)
  else
    match env.topics.find? (fun t => t.topicPath == jsTrim topicPath) with
    | some t => (.ok t, env)
    | none =>
        if hasWildcards topicPath && !validateTopicPattern topicPath then
          (.error (.invalidInput ("Invalid topic pattern: " ++ topicPath)), env)
        else
          let t : Topic := ⟨env.nextTopicId, jsTrim topicPath, true⟩
          (.ok t, ⟨env.topics ++ [t], env.nextTopicId + 1⟩)

/-! ## `updateScheduledPublication` (`src/services/publication.service.ts`) -/

/-- `Partial<ScheduledPublicationDto>` as received by
`updateScheduledPublication`: `none` models an absent (`undefined`) field.
`scheduledTime` is carried as the raw string handed to `new Date(...)`. -/
structure UpdateDto where
  topicPath : Option String := none
  payload : Option String := none
  qos : Option Int := none
  retain : Option Bool := none
  scheduledTime : Option String := none
deriving DecidableEq, Repr

/-- The `updatePayload` object assembled by `updateScheduledPublication`:
a field is `some` exactly when the corresponding key was assigned. -/
structure UpdatePayload where
  topicId : Option Nat := none
  payload : Option String := none
  qos : Option Int := none
  retain : Option Bool := none
  scheduledTime : Option Int := none
deriving DecidableEq, Repr

/-- `Object.keys(updatePayload).length === 0`. -/
def UpdatePayload.isEmpty (u : UpdatePayload) : Bool :=
  u.topicId.isNone && u.payload.isNone && u.qos.isNone && u.retain.isNone
    && u.scheduledTime.isNone

/-- The `topicPath` of the topic row referenced by a publication (the
`include: { topic: true }` join).  In the database the foreign key always
resolves; on a corrupt state the source would crash, here the path defaults
to `""`. -/
def topicPathOf (env : TopicEnv) (r : ScheduledPublication) : String :=
  ((env.topics.find? (fun t => t.id == r.topicId)).map Topic.topicPath).getD ""

/-- The topic-change section of `updateScheduledPublication`: only a
provided, non-blank path that differs from the record's current topic path
is resolved through `getOrCreateTopic` (which may extend the topic table)
and checked for `isPublic`; `some id` in the result is the `topicId` key of
`updatePayload`. -/
def topicChangeStep (dto : UpdateDto) (existing : ScheduledPublication) (env : TopicEnv) :
    Except ServiceError (Option Nat) × TopicEnv :=
  match dto.topicPath with
  | none => (.ok none, env)
  | some tp =>
      if jsTrim tp == "" then
        (.error (.invalidInput "Topic path cannot be empty"), env)
      else if jsTrim tp == topicPathOf env existing then (.ok none, env)
      else
        match getOrCreateTopic (jsTrim tp) env with
        | (.error e, env') => (.error e, env')
        | (.ok newTopic, env') =>
            if !newTopic.isPublic then
              (.error (.notPublic ("Topic is not public for publishing: " ++ tp)), env')
            else (.ok (some newTopic.id), env')

/-- The scheduled-time section of `updateScheduledPublication`
(`if (updateData.scheduledTime) { ... }`): an absent or empty string leaves
the key unassigned; a non-empty string must parse (`parseDate` models
`new Date(string)`, `none` when the result `isNaN`).  The assembled
`updatePayload` carries the topic id from the topic section and the
`payload`/`qos`/`retain` keys exactly when the DTO provided them. -/
def scheduledTimeStep (parseDate : String → Option Int) (dto : UpdateDto)
    (topicIdOpt : Option Nat) (env : TopicEnv) :
    Except ServiceError UpdatePayload × TopicEnv :=
  match dto.scheduledTime with
  | some s =>
      if s == "" then (.ok ⟨topicIdOpt, dto.payload, dto.qos, dto.retain, none⟩, env)
      else
        match parseDate s with
        | none => (.error (.invalidInput ("Invalid scheduled time: " ++ s)), env)
        | some t => (.ok ⟨topicIdOpt, dto.payload, dto.qos, dto.retain, some t⟩, env)
  | none => (.ok ⟨topicIdOpt, dto.payload, dto.qos, dto.retain, none⟩, env)

/-- The field-by-field assembly of `updatePayload` in
`updateScheduledPublication`, in source order: topic change, payload, QoS
range validation, retain, scheduled-time parsing. -/
def computeUpdatePayload (parseDate : String → Option Int) (dto : UpdateDto)
    (existing : ScheduledPublication) (env : TopicEnv) :
    Except ServiceError UpdatePayload × TopicEnv :=
  match topicChangeStep dto existing env with
  | (.error e, env') => (.error e, env')
  | (.ok topicIdOpt, env') =>
      match dto.qos with
      | some q =>
          if q < 0 || q > 2 then
            (.error (.invalidInput ("Invalid QoS value: " ++ toString q ++ ". Must be 0, 1, or 2")), env')
          else scheduledTimeStep parseDate dto topicIdOpt env'
      | none => scheduledTimeStep parseDate dto topicIdOpt env'

/-- `prisma.scheduledPublication.update({ data: updatePayload })`: only the
assigned columns change; `status` and `publishedAt` are not among them. -/
def applyUpdate (u : UpdatePayload) (r : ScheduledPublication) : ScheduledPublication :=
  { r with
    topicId := u.topicId.getD r.topicId
    payload := u.payload.getD r.payload
    qos := u.qos.getD r.qos
    retain := u.retain.getD r.retain
    scheduledTime := u.scheduledTime.getD r.scheduledTime }

/-- `updateScheduledPublication` from `src/services/publication.service.ts`
(current revision): validates the id, looks the record up, rejects records
already `PUBLISHED`, assembles `updatePayload` from the provided fields only,
rejects an empty payload, and applies it.  Returns the updated record (or
the error), the topic table (which `getOrCreateTopic` may have extended even
on a failing run), and the publication table. -/
def updateScheduledPublication (parseDate : String → Option Int) (id : String)
    (dto : UpdateDto) (env : TopicEnv) (store : List ScheduledPublication) :
    Except ServiceError ScheduledPublication × TopicEnv × List ScheduledPublication :=
  if jsTrim id == "" then
    (.error (.invalidInput "Publication ID cannot be empty"), env, store)
  else
    match store.find? (fun r => r.id == jsTrim id) with
    | none => (.error (.notFound ("Scheduled publication not found with ID: " ++ id)), env, store)
    | some existing =>
        if existing.status == PubStatus.PUBLISHED then
          (.error (.invalidState ("Cannot update already published message with ID: " ++ id)), env, store)
        else
          match computeUpdatePayload parseDate dto existing env with
          | (.error e, env') => (.error e, env', store)
          | (.ok upd, env') =>
              if upd.isEmpty then
                (.error (.invalidInput "No valid fields to update"), env', store)
              else
                (.ok (applyUpdate upd existing), env',
                 store.map (fun r => if r.id == jsTrim id then applyUpdate upd r else r))

/-- `cancelScheduledPublication` from `src/services/publication.service.ts`:
validates the id, looks the record up, rejects records already `PUBLISHED`,
and otherwise sets `status := CANCELLED`. -/
def cancelScheduledPublication (id : String) (store : List ScheduledPublication) :
    Except ServiceError ScheduledPublication × List ScheduledPublication :=
  if jsTrim id == "" then
    (.error (.invalidInput "Publication ID cannot be empty"), store)
  else
    match store.find? (fun r => r.id == jsTrim id) with
    | none => (.error (.notFound ("Scheduled publication not found with ID: " ++ id)), store)
    | some sp =>
        if sp.status == PubStatus.PUBLISHED then
          (.error (.invalidState ("Cannot cancel already published message with ID: " ++ id)), store)
        else
          (.ok { sp with status := PubStatus.CANCELLED },
           store.map (fun r => if r.id == jsTrim id then { r with status := PubStatus.CANCELLED } else r))

/-! ## `processScheduledPublications` (`src/services/publication.service.ts`) -/

/-- The due-record selection
`findMany({ where: { scheduledTime: { lte: now }, status: "PENDING" } })`. -/
def isDue (now : Int) (r : ScheduledPublication) : Bool :=
  decide (r.scheduledTime ≤ now) && r.status == PubStatus.PENDING

/-- The list of due publications selected at the start of a pass. -/
def dueOf (now : Int) (store : List ScheduledPublication) : List ScheduledPublication :=
  store.filter (isDue now)

/-- `update({ where: { id }, data: { status: "PUBLISHED", publishedAt: now } })`. -/
def markPublished (now : Int) (pubId : String) (store : List ScheduledPublication) :
    List ScheduledPublication :=
  store.map (fun r =>
    if r.id == pubId then { r with status := PubStatus.PUBLISHED, publishedAt := some now } else r)

/-- `update({ where: { id }, data: { status: "FAILED" } })`. -/
def markFailed (pubId : String) (store : List ScheduledPublication) :
    List ScheduledPublication :=
  store.map (fun r => if r.id == pubId then { r with status := PubStatus.FAILED } else r)

/-- The `for (const publication of duePublications)` loop of
`processScheduledPublications`: each record is delivered through
`publishToTopic` (abstracted as the external outcome `deliver`) inside its
own `try`; success marks the record `PUBLISHED` and increments
`processedCount`, failure marks it `FAILED` and the loop continues. -/
def processLoop (deliver : ScheduledPublication → Bool) (now : Int) :
    List ScheduledPublication → Nat × List ScheduledPublication →
    Nat × List ScheduledPublication
  | [], acc => acc
  | pub :: rest, acc =>
      if deliver pub then
        processLoop deliver now rest (acc.1 + 1, markPublished now pub.id acc.2)
      else
        processLoop deliver now rest (acc.1, markFailed pub.id acc.2)

/-- `processScheduledPublications` from `src/services/publication.service.ts`
(current revision): selects the due `PENDING` records and runs the delivery
loop, returning `processedCount` and the updated table.  `deliver` is the
outcome of the broker delivery path for each record. -/
def processScheduledPublications (deliver : ScheduledPublication → Bool) (now : Int)
    (store : List ScheduledPublication) : Nat × List ScheduledPublication :=
  processLoop deliver now (dueOf now store) (0, store)

/-- The per-record end state of one processing pass: a due `PENDING` record
becomes `PUBLISHED` (with `publishedAt := now`) when delivery succeeds and
`FAILED` when it fails; every other record is untouched. -/
def finalizeRecord (deliver : ScheduledPublication → Bool) (now : Int)
    (r : ScheduledPublication) : ScheduledPublication :=
  if isDue now r then
    if deliver r then { r with status := PubStatus.PUBLISHED, publishedAt := some now }
    else { r with status := PubStatus.FAILED }
  else r

/-! ## Scheduler guard (`src/services/scheduler.service.ts`) -/

/-- The scheduler module's state: the module-level `isProcessing` flag and
the shared publication table. -/
structure SchedulerState where
  isProcessing : Bool
  store : List ScheduledPublication
deriving DecidableEq, Repr

/-- `checkScheduledPublications` from `src/services/scheduler.service.ts`:
if a pass is already in flight the call returns `0` immediately — it selects
nothing, delivers nothing and mutates nothing.  Otherwise it runs one
`processScheduledPublications` pass under the flag.  The middle component is
the list of records on which delivery was attempted during the call. -/
def checkScheduledPublications (deliver : ScheduledPublication → Bool) (now : Int)
    (s : SchedulerState) : Nat × List ScheduledPublication × SchedulerState :=
  if s.isProcessing then (0, [], s)
  else
    let result := processScheduledPublications deliver now s.store
    (result.1, dueOf now s.store, ⟨false, result.2⟩)

/-! ## Broker connection registry (`src/utils/mqtt-client.ts`) -/

/-- A tracked connection: `clientId` is the identity of the underlying
`MqttClient` object created by `mqtt.connect` (fresh per creation), and
`deviceId` the owning device. -/
structure MqttConnection where
  clientId : Nat
  deviceId : String
deriving DecidableEq, Repr

/-- The `MqttClientManager` singleton's state: the `connections` map (device
id to connection, most recent binding first) and the source of fresh client
identities. -/
structure ManagerState where
  connections : List (String × MqttConnection)
  nextClientId : Nat
deriving DecidableEq, Repr

/-- `ConnectionError`: the connect promise rejected (timeout or broker
error). -/
structure ConnectionError where
  deviceId : String
deriving DecidableEq, Repr

/-- `MqttClientManager.connect` from `src/utils/mqtt-client.ts`: if a
connection is already tracked for `deviceId` it is returned as-is — the
`username`/`password`/`url` arguments are not consulted.  Otherwise a new
client is created and stored in the map *before* the code awaits the
`connect` event; `establishOk` models whether that wait succeeds within the
timeout (on failure the promise rejects but the map retains the entry, as in
the source). -/
def connect (deviceId username password url : String) (establishOk : Bool)
    (s : ManagerState) : Except ConnectionError Nat × ManagerState :=
  match s.connections.lookup deviceId with
  | some conn => (.ok conn.clientId, s)
  | none =>
      let _ := (username, password, url)
      let clientId := s.nextClientId
      let s' : ManagerState :=
        ⟨(deviceId, ⟨clientId, deviceId⟩) :: s.connections, s.nextClientId + 1⟩
      (if establishOk then .ok clientId else .error ⟨deviceId⟩, s')

/-! ## Telemetry ingestion (`src/services/mqtt.service.ts`) -/

/-- A JSON value as produced by `JSON.parse`.  Numbers are modelled as
integers (the payloads in the specification's examples are integral; the
floating-point representation is irrelevant to the claims below). -/
inductive Json where
  | num (n : Int)
  | str (s : String)
  | bool (b : Bool)
  | null
  | arr (elems : List Json)
  | obj (fields : List (String × Json))

/-- JavaScript `typeof`; note `typeof null === "object"`. -/
def jsTypeof : Json → String
  | .num _ => "number"
  | .str _ => "string"
  | .bool _ => "boolean"
  | .null => "object"
  | .arr _ => "object"
  | .obj _ => "object"

/-- JavaScript truthiness of a parsed JSON value (`if (jsonData)`); `0`,
`false`, `null` and `""` are falsy. -/
def jsTruthy : Json → Bool
  | .null => false
  | .bool b => b
  | .num n => n != 0
  | .str s => s != ""
  | .arr _ => true
  | .obj _ => true

/-- `Object.entries(value)` for the values reachable in
`extractKeysFromJson`: an object's own fields in insertion order, an array's
elements under their decimal indices, a string's characters under their
decimal indices (`Object.entries` coerces a primitive string to a `String`
object, whose own enumerable properties are its indices), and no entries for
the remaining primitives.  `Object.entries(null)` would throw, but `null` is
never passed (the caller is guarded by truthiness / the `!== null` check). -/
def jsEntries : Json → List (String × Json)
  | .obj fields => fields
  | .arr elems => elems.enum.map (fun p => (toString p.1, p.2))
  | .str s => s.toList.enum.map (fun p => (toString p.1, Json.str (String.singleton p.2)))
  | _ => []

mutual

/-- The per-entry body of `processObject` in `extractKeysFromJson`: a
non-array, non-null object recurses with the extended prefix, an array
contributes a single `"array"` key, and any other value contributes its
`typeof` name. -/
def processValue (keyName : String) : Json → List (String × String)
  | .obj fields => processEntries keyName fields
  | .arr _ => [(keyName, "array")]
  | v => [(keyName, jsTypeof v)]

/-- The `for (const [key, value] of Object.entries(obj))` loop of
`processObject`, keys accumulated in iteration order. -/
def processEntries (pre : String) : List (String × Json) → List (String × String)
  | [] => []
  | (key, value) :: rest =>
      let keyName := if pre == "" then key else pre ++ "." ++ key
      processValue keyName value ++ processEntries pre rest

end

/-- `extractKeysFromJson` from `src/services/mqtt.service.ts`. -/
def extractKeysFromJson (json : Json) : List (String × String) :=
  processEntries "" (jsEntries json)

/-- A row of the `DeviceKey` table (a Telemetry Key). -/
structure DeviceKey where
  id : Nat
  deviceId : String
  keyName : String
  keyType : String
deriving DecidableEq, Repr

/-- A row of the `DeviceData` table (a Telemetry Value). -/
structure DeviceDataRow where
  deviceId : String
  keyId : Nat
  value : String
  partition : Int
deriving DecidableEq, Repr

/-- The telemetry tables and the key-id sequence. -/
structure DbState where
  keys : List DeviceKey
  rows : List DeviceDataRow
  nextKeyId : Nat
deriving DecidableEq, Repr

/-- The empty telemetry store. -/
def emptyDb : DbState := ⟨[], [], 0⟩

/-- The `prisma.deviceKey.upsert` keyed by `(deviceId, keyName)`: update the
type if the key exists, create the row otherwise. -/
def upsertKey (deviceId keyName keyType : String) (db : DbState) : DbState :=
  if db.keys.any (fun k => k.deviceId == deviceId && k.keyName == keyName) then
    { db with keys := db.keys.map (fun k =>
        if k.deviceId == deviceId && k.keyName == keyName then { k with keyType := keyType } else k) }
  else
    { db with keys := db.keys ++ [⟨db.nextKeyId, deviceId, keyName, keyType⟩],
              nextKeyId := db.nextKeyId + 1 }

/-- `storeDeviceKeys` from `src/services/mqtt.service.ts`: upsert each
discovered key in order. -/
def storeDeviceKeys (deviceId : String) (keys : List (String × String)) (db : DbState) : DbState :=
  keys.foldl (fun db k => upsertKey deviceId k.1 k.2 db) db

/-- A decimal string as an array/string index (the indices generated by
`jsEntries` are canonical, so this parsing agrees with the JavaScript
array-index semantics on every reachable input). -/
def parseIndex (s : String) : Option Nat :=
  let cs := s.toList
  if cs.isEmpty || !cs.all Char.isDigit then none
  else some (cs.foldl (fun acc c => acc * 10 + (c.toNat - '0'.toNat)) 0)

/-- JavaScript property access `value[part]` for the walk in
`processDeviceData`; `none` models `undefined`. -/
def jsIndex : Json → String → Option Json
  | .obj fields, part => fields.lookup part
  | .arr elems, part => (parseIndex part).bind (fun i => elems.get? i)
  | .str s, part => (parseIndex part).bind (fun i => (s.toList.get? i).map (fun c => Json.str (String.singleton c)))
  | _, _ => none

/-- The key-path walk of `processDeviceData`
(`for (const part of keyParts) { if (value == null) break; value = value[part]; }`):
`some .null` models a walk that stopped on `null`, `none` one that stopped
on `undefined`; both are skipped by the caller. -/
def resolveValue : Json → List String → Option Json
  | v, [] => some v
  | .null, _ :: _ => some Json.null
  | v, part :: rest =>
      match jsIndex v part with
      | none => none
      | some v' => resolveValue v' rest

mutual

/-- `JSON.stringify` for the values this service serializes (element lists
are comma-interposed by the two workers below). -/
def jsonStringify : Json → String
  | .num n => toString n
  | .str s => "\"" ++ s ++ "\""
  | .bool b => cond b "true" "false"
  | .null => "null"
  | .arr elems => "[" ++ stringifyElems elems ++ "]"
  | .obj fields => "\x7b" ++ stringifyFields fields ++ "\x7d"

/-- Comma-separated serialization of an array's elements. -/
def stringifyElems : List Json → String
  | [] => ""
  | [e] => jsonStringify e
  | e :: rest => jsonStringify e ++ "," ++ stringifyElems rest

/-- Comma-separated serialization of an object's fields. -/
def stringifyFields : List (String × Json) → String
  | [] => ""
  | [f] => "\"" ++ f.1 ++ "\":" ++ jsonStringify f.2
  | f :: rest => "\"" ++ f.1 ++ "\":" ++ jsonStringify f.2 ++ "," ++ stringifyFields rest

end

/-- The string encoding of a resolved value:
`typeof value === "object" ? JSON.stringify(value) : String(value)`. -/
def encodeValue (v : Json) : String :=
  if jsTypeof v == "object" then jsonStringify v
  else
    match v with
    | .num n => toString n
    | .str s => s
    | .bool b => cond b "true" "false"
    | v => jsonStringify v

/-- The second loop of `processDeviceData`: for each discovered key, resolve
the value along the dotted path, skip `null`/`undefined` results, and append
one `DeviceData` row under the key's id (no row if the key row is somehow
absent). -/
def storeRows (deviceId : String) (jsonData : Json) (partition : Int) :
    List (String × String) → DbState → DbState
  | [], db => db
  | (keyName, _) :: rest, db =>
      let db' :=
        match resolveValue jsonData (jsSplit keyName '.') with
        | none => db
        | some .null => db
        | some value =>
            match db.keys.find? (fun k => k.deviceId == deviceId && k.keyName == keyName) with
            | some deviceKey =>
                { db with rows := db.rows ++ [⟨deviceId, deviceKey.id, encodeValue value, partition⟩] }
            | none => db
      storeRows deviceId jsonData partition rest db'

/-- The non-JSON branch of `processDeviceData`: derive the key from the topic
(`topicPath.replace(/\//g, ".")`), upsert it with type `"string"`, and store
the raw payload as one row. -/
def rawIngest (deviceId topicPath payload : String) (partition : Int) (db : DbState) : DbState :=
  let topicKey : String := ⟨topicPath.toList.map (fun c => if c == '/' then '.' else c)⟩
  let db1 := storeDeviceKeys deviceId [(topicKey, "string")] db
  match db1.keys.find? (fun k => k.deviceId == deviceId && k.keyName == topicKey) with
  | some deviceKey =>
      { db1 with rows := db1.rows ++ [⟨deviceId, deviceKey.id, payload, partition⟩] }
  | none => db1

/-- The JSON branch of `processDeviceData`: extract the keys, upsert them
all, then write the value rows. -/
def structuredIngest (deviceId : String) (jsonData : Json) (partition : Int) (db : DbState) : DbState :=
  let keys := extractKeysFromJson jsonData
  let db1 := storeDeviceKeys deviceId keys db
  storeRows deviceId jsonData partition keys db1

/-- `processDeviceData` from `src/services/mqtt.service.ts`.  `parsed` is the
result of `tryParseJson(payload)` (`none` when `JSON.parse` threw); the
branch between the structured and the raw path is JavaScript truthiness of
`jsonData`, so a payload parsing to `null`, `false`, `0` or `""` takes the
raw path exactly like unparseable text. -/
def processDeviceData (deviceId topicPath payload : String) (parsed : Option Json)
    (partition : Int) (db : DbState) : DbState :=
  match parsed with
  | some jsonData =>
      if jsTruthy jsonData then structuredIngest deviceId jsonData partition db
      else rawIngest deviceId topicPath payload partition db
  | none => rawIngest deviceId topicPath payload partition db

/-! ## Sample fixtures used by the witness theorems -/

/-- A one-topic environment. -/
def sampleTopicEnv : TopicEnv := ⟨[⟨0, "t", true⟩], 1⟩

/-- A due record whose earlier delivery failed. -/
def sampleFailedPub : ScheduledPublication := ⟨"p1", "d", 0, "x", 0, false, 50, .FAILED, none⟩

/-- A due pending record (delivery will succeed in the witnesses). -/
def samplePendingPub1 : ScheduledPublication := ⟨"p1", "d", 0, "x", 0, false, 50, .PENDING, none⟩

/-- A due pending record (delivery will fail in the witnesses). -/
def samplePendingPub2 : ScheduledPublication := ⟨"p2", "d", 0, "y", 0, false, 60, .PENDING, none⟩

/-- A pending record that is not yet due at instant `100`. -/
def sampleLatePub : ScheduledPublication := ⟨"p3", "d", 0, "z", 0, false, 200, .PENDING, none⟩

/-- A record that has already been published. -/
def samplePublishedPub : ScheduledPublication := ⟨"p9", "d", 0, "w", 0, false, 10, .PUBLISHED, some 20⟩

/-- A delivery outcome: only `"p1"` succeeds. -/
def sampleDeliver (r : ScheduledPublication) : Bool := r.id == "p1"

/-! ## Lemmas about `splitOnChar` -/

/-- Splitting never produces the empty list of segments. -/
lemma splitOnChar_ne_nil (sep : Char) : ∀ l : List Char, splitOnChar sep l ≠ []
  | [] => by simp [splitOnChar]
  | c :: rest => by
      simp only [splitOnChar]
      split
      · simp
      · split <;> simp

/-- A list splits into a single segment exactly when it does not contain the
separator. -/
lemma splitOnChar_length_eq_one_iff (sep : Char) (l : List Char) :
    (splitOnChar sep l).length = 1 ↔ sep ∉ l := by
  induction l with
  | nil => simp [splitOnChar]
  | cons c rest ih =>
      by_cases hc : c = sep
      · subst hc
        have hne := splitOnChar_ne_nil c rest
        have hpos : 0 < (splitOnChar c rest).length := List.length_pos.mpr hne
        constructor
        · intro hlen
          exfalso
          simp only [splitOnChar, beq_self_eq_true, if_true, List.length_cons] at hlen
          omega
        · intro hmem
          exact absurd (List.mem_cons_self c rest) hmem
      · have hcb : (c == sep) = false := beq_eq_false_iff_ne.mpr hc
        rcases hr : splitOnChar sep rest with _ | ⟨seg, segs⟩
        · exact absurd hr (splitOnChar_ne_nil sep rest)
        · rw [hr] at ih
          simp only [splitOnChar, hcb, Bool.false_eq_true, if_false, hr,
            List.length_cons, List.mem_cons] at ih ⊢
          constructor
          · intro h
            rintro (h1 | h2)
            · exact hc h1.symm
            · exact (ih.mp h) h2
          · intro h
            exact ih.mpr (fun hm => h (Or.inr hm))

/-- A single-segment split returns the list itself as the one segment. -/
lemma splitOnChar_eq_singleton (sep : Char) (l : List Char) (h : sep ∉ l) :
    splitOnChar sep l = [l] := by
  induction l with
  | nil => simp [splitOnChar]
  | cons c rest ih =>
      have hc : ¬(c = sep) := fun hcc => h (hcc ▸ List.mem_cons_self c rest)
      have hrest : sep ∉ rest := fun hm => h (List.mem_cons_of_mem c hm)
      simp only [splitOnChar, ih hrest]
      simp [hc]

/-! ## Claims C3 and C4 — the topic matcher -/

/-- The per-segment loop rejects any segment list containing an embedded
`+`. -/
lemma wildcardSegmentsOk_eq_false_of_embedded_plus :
    ∀ (segs : List (List Char)) (i n : Nat),
      segs.any (fun seg => seg.contains '+' && seg != ['+']) = true →
      wildcardSegmentsOk segs i n = false := by
  intro segs
  induction segs with
  | nil => intro i n h; simp at h
  | cons seg rest ih =>
      intro i n h
      show (if seg.contains '+' && seg != ['+'] then false
            else if seg == ['#'] && i != n - 1 then false
            else wildcardSegmentsOk rest (i + 1) n) = false
      by_cases h1 : (seg.contains '+' && seg != ['+']) = true
      · rw [if_pos h1]
      · rw [if_neg h1]
        have h2 : rest.any (fun s => s.contains '+' && s != ['+']) = true := by
          rcases List.any_eq_true.mp h with ⟨x, hx, hfx⟩
          rcases List.mem_cons.mp hx with hxe | hxm
          · exact absurd (hxe ▸ hfx) h1
          · exact List.any_eq_true.mpr ⟨x, hxm, hfx⟩
        by_cases h3 : (seg == ['#'] && i != n - 1) = true
        · rw [if_pos h3]
        · rw [if_neg h3]
          exact ih (i + 1) n h2

/-- **C3** (counterexample): as stated the claim is false — `"a#"` embeds a
wildcard in a longer segment, yet `validateTopicPattern` accepts it, because
the source only rejects a segment that *contains `+`* without being `+`,
and a `#`-segment check fires only when the segment is exactly `"#"`. -/
theorem C3_counterexample_embedded_hash :
    hasEmbeddedWildcardSegment "a#" = true ∧ validateTopicPattern "a#" = true :=
  ⟨by decide, by decide⟩

/-- **C3** (amended): `validateTopicPattern` returns `false` for every
pattern in which a `+` is embedded inside a longer segment token (for
example `"a+"`), returns `false` for `"a/#/b"` and `""`, and returns `true`
for `"a/+/b"`, `"a/#"`, `"+"`, and `"#"`; a `#` embedded inside a longer
token (such as `"a#"`) is *not* rejected. -/
theorem C3_validate_pattern_amended :
    (∀ p : String,
        (splitOnChar '/' p.toList).any (fun seg => seg.contains '+' && seg != ['+']) = true →
        validateTopicPattern p = false)
    ∧ validateTopicPattern "a+" = false
    ∧ validateTopicPattern "a/#/b" = false ∧ validateTopicPattern "" = false
    ∧ validateTopicPattern "a/+/b" = true ∧ validateTopicPattern "a/#" = true
    ∧ validateTopicPattern "+" = true ∧ validateTopicPattern "#" = true
    ∧ validateTopicPattern "a#" = true := by
  refine ⟨?_, by decide, by decide, by decide, by decide, by decide, by decide, by decide, by decide⟩
  intro p h
  unfold validateTopicPattern
  split
  · rfl
  · split
    · rfl
    · show wildcardSegmentsOk (splitOnChar '/' p.toList) 0 (splitOnChar '/' p.toList).length = false
      exact wildcardSegmentsOk_eq_false_of_embedded_plus _ 0 _ h

/-- Witness for C3 (amended): the embedded-`+` clause applied at the
concrete pattern `"b+c"`. -/
theorem C3_validate_pattern_amended_witness :
    (splitOnChar '/' "b+c".toList).any (fun seg => seg.contains '+' && seg != ['+']) = true
    ∧ validateTopicPattern "b+c" = false :=
  ⟨by decide, C3_validate_pattern_amended.1 "b+c" (by decide)⟩

/-- **C4** (counterexample): as stated the claim is false — `matchTopic "+" ""`
returns `true`, because `"".split("/")` is `[""]`, a single (empty) segment,
which the `+` segment absorbs. -/
theorem C4_counterexample_empty_topic : matchTopic "+" "" = true := by decide

/-- **C4** (amended): `matchTopic "+" T` is true exactly when `T` contains
no `/` — a single segment, which may be empty.  In particular
`matchTopic "+" "a"` is true, `matchTopic "+" "a/b"` is false, and
`matchTopic "+" ""` is true (not false). -/
theorem C4_match_plus_amended (T : String) :
    matchTopic "+" T = true ↔ '/' ∉ T.toList := by
  unfold matchTopic
  split
  · rename_i hbeq
    have hT : ("+" : String) = T := by simpa using hbeq
    subst hT
    simp
  · show (if ([['+']] : List (List Char)).length != (splitOnChar '/' T.toList).length then false
          else segLoop [['+']] (splitOnChar '/' T.toList)) = true ↔ '/' ∉ T.toList
    have hiff := splitOnChar_length_eq_one_iff '/' T.toList
    rcases hsplit : splitOnChar '/' T.toList with _ | ⟨t, ts⟩
    · exact absurd hsplit (splitOnChar_ne_nil '/' _)
    · rw [hsplit] at hiff
      cases ts with
      | nil =>
          have hmem : '/' ∉ T.data := hiff.mp (by rfl)
          simp [segLoop, hmem]
      | cons t2 ts2 =>
          have hmem : '/' ∈ T.data := by
            by_contra hnm
            have := hiff.mpr hnm
            simp at this
          simp [segLoop, hmem]

/-- Witness for C4 (amended): applied at the concrete topics `"abc"` and
`"a/b"`. -/
theorem C4_match_plus_amended_witness :
    matchTopic "+" "abc" = true ∧ matchTopic "+" "a/b" = false :=
  ⟨(C4_match_plus_amended "abc").mpr (by decide),
   by
    have h := C4_match_plus_amended "a/b"
    revert h
    decide⟩

/-! ## Claim C5 — published records are frozen -/

/-- **C5**: for an existing scheduled publication that is already
`PUBLISHED`, both `updateScheduledPublication` and
`cancelScheduledPublication` fail with the invalid-state error, raised
before any store mutation: the topic table and the publication table are
returned exactly as given, so every field of every record is unchanged. -/
theorem C5_published_record_frozen (parseDate : String → Option Int) (id : String)
    (dto : UpdateDto) (env : TopicEnv) (store : List ScheduledPublication)
    (sp : ScheduledPublication)
    (hid : jsTrim id ≠ "")
    (hfind : store.find? (fun r => r.id == jsTrim id) = some sp)
    (hpub : sp.status = PubStatus.PUBLISHED) :
    updateScheduledPublication parseDate id dto env store
      = (.error (.invalidState ("Cannot update already published message with ID: " ++ id)), env, store)
    ∧ cancelScheduledPublication id store
      = (.error (.invalidState ("Cannot cancel already published message with ID: " ++ id)), store) := by
  have hidb : (jsTrim id == "") = false := beq_eq_false_iff_ne.mpr hid
  have hsb : (sp.status == PubStatus.PUBLISHED) = true := by simp [hpub]
  constructor
  · simp only [updateScheduledPublication, hidb, Bool.false_eq_true, if_false, hfind, hsb, if_true]
  · simp only [cancelScheduledPublication, hidb, Bool.false_eq_true, if_false, hfind, hsb, if_true]

/-- Witness for C5 at a concrete published record. -/
theorem C5_published_record_frozen_witness :
    jsTrim "p9" ≠ ""
    ∧ [samplePublishedPub].find? (fun r => r.id == jsTrim "p9") = some samplePublishedPub
    ∧ samplePublishedPub.status = PubStatus.PUBLISHED
    ∧ (updateScheduledPublication (fun _ => none) "p9" {} sampleTopicEnv [samplePublishedPub]
        = (.error (.invalidState ("Cannot update already published message with ID: " ++ "p9")),
           sampleTopicEnv, [samplePublishedPub])
       ∧ cancelScheduledPublication "p9" [samplePublishedPub]
        = (.error (.invalidState ("Cannot cancel already published message with ID: " ++ "p9")),
           [samplePublishedPub])) :=
  ⟨by decide, by decide, by decide,
   C5_published_record_frozen (fun _ => none) "p9" {} sampleTopicEnv [samplePublishedPub]
     samplePublishedPub (by decide) (by decide) (by decide)⟩

/-! ## Claim C7 — the in-flight guard -/

/-- **C7**: a `checkScheduledPublications` call made while `isProcessing` is
set returns `0`, attempts no delivery, and leaves the scheduler state —
including the whole publication table — untouched, so a pass requested while
another is running never delivers anything at all, let alone a record the
running pass also delivers. -/
theorem C7_inflight_pass_dropped (deliver : ScheduledPublication → Bool) (now : Int)
    (s : SchedulerState) (h : s.isProcessing = true) :
    checkScheduledPublications deliver now s = (0, [], s) := by
  unfold checkScheduledPublications
  rw [h]
  simp

/-- Witness for C7 at a concrete busy scheduler state. -/
theorem C7_inflight_pass_dropped_witness :
    (SchedulerState.mk true [samplePendingPub1]).isProcessing = true
    ∧ checkScheduledPublications sampleDeliver 100 ⟨true, [samplePendingPub1]⟩
        = (0, [], ⟨true, [samplePendingPub1]⟩) :=
  ⟨rfl, C7_inflight_pass_dropped sampleDeliver 100 ⟨true, [samplePendingPub1]⟩ rfl⟩

/-! ## Claim C8 — the connection registry reuses connections -/

/-- If an association-list lookup misses, the key is not among the mapped
first components. -/
lemma lookup_eq_none_not_mem {α β : Type _} [BEq α] [LawfulBEq α] (a : α) :
    ∀ l : List (α × β), l.lookup a = none → a ∉ l.map Prod.fst
  | [], _ => by simp
  | (k, v) :: rest, h => by
      simp only [List.lookup_cons] at h
      by_cases hab : (a == k) = true
      · rw [hab] at h
        exact absurd h (by simp)
      · have hf : (a == k) = false := by
          revert hab; cases (a == k) <;> simp
        rw [hf] at h
        have hne : a ≠ k := by
          intro he; rw [he] at hf; simp at hf
        simp only [List.map_cons, List.mem_cons]
        rintro (he | hm)
        · exact hne he
        · exact lookup_eq_none_not_mem a rest h hm

/-- **C8**: if a first `connect` for a device returned a client, a second
`connect` for the same device — with arbitrary, possibly different
credentials, broker url and establish outcome — returns the *same* client
and does not change the registry at all; moreover the registry holds at most
one connection per device (the device-id keys stay duplicate-free). -/
theorem C8_connect_reuses_connection (deviceId u1 p1 url1 u2 p2 url2 : String)
    (ok1 ok2 : Bool) (s : ManagerState) (clientId : Nat)
    (hnodup : (s.connections.map Prod.fst).Nodup)
    (hfirst : (connect deviceId u1 p1 url1 ok1 s).1 = .ok clientId) :
    (connect deviceId u2 p2 url2 ok2 (connect deviceId u1 p1 url1 ok1 s).2).1 = .ok clientId
    ∧ (connect deviceId u2 p2 url2 ok2 (connect deviceId u1 p1 url1 ok1 s).2).2
        = (connect deviceId u1 p1 url1 ok1 s).2
    ∧ (((connect deviceId u1 p1 url1 ok1 s).2).connections.map Prod.fst).Nodup := by
  rcases hlk : s.connections.lookup deviceId with _ | conn
  · have hstate : (connect deviceId u1 p1 url1 ok1 s).2
        = ⟨(deviceId, ⟨s.nextClientId, deviceId⟩) :: s.connections, s.nextClientId + 1⟩ := by
      unfold connect; rw [hlk]
    have hres : (connect deviceId u1 p1 url1 ok1 s).1
        = if ok1 then .ok s.nextClientId else .error ⟨deviceId⟩ := by
      unfold connect; rw [hlk]
    have hcid : clientId = s.nextClientId := by
      rw [hres] at hfirst
      cases hok : ok1
      · rw [hok] at hfirst; simp at hfirst
      · rw [hok] at hfirst; simpa using hfirst.symm
    have hnotmem : deviceId ∉ s.connections.map Prod.fst :=
      lookup_eq_none_not_mem deviceId s.connections hlk
    refine ⟨?_, ?_, ?_⟩
    · rw [hstate]
      simp [connect, List.lookup_cons, hcid]
    · rw [hstate]
      simp [connect, List.lookup_cons]
    · rw [hstate]
      simp only [List.map_cons]
      exact List.nodup_cons.mpr ⟨hnotmem, hnodup⟩
  · have hstate : (connect deviceId u1 p1 url1 ok1 s).2 = s := by
      unfold connect; rw [hlk]
    have hres : (connect deviceId u1 p1 url1 ok1 s).1 = .ok conn.clientId := by
      unfold connect; rw [hlk]
    have hcid : clientId = conn.clientId := by
      rw [hres] at hfirst
      simpa using hfirst.symm
    refine ⟨?_, ?_, ?_⟩
    · rw [hstate]
      unfold connect
      rw [hlk, hcid]
    · rw [hstate]
      unfold connect
      rw [hlk]
    · rw [hstate]
      exact hnodup

/-- Witness for C8: a fresh registry, a successful first connect and a
second connect with different credentials whose own establish step would
even fail — the tracked client is returned regardless. -/
theorem C8_connect_reuses_connection_witness :
    ((⟨[], 0⟩ : ManagerState).connections.map Prod.fst).Nodup
    ∧ (connect "d1" "u" "p" "url" true ⟨[], 0⟩).1 = .ok 0
    ∧ ((connect "d1" "u2" "p2" "url2" false (connect "d1" "u" "p" "url" true ⟨[], 0⟩).2).1 = .ok 0
       ∧ (connect "d1" "u2" "p2" "url2" false (connect "d1" "u" "p" "url" true ⟨[], 0⟩).2).2
           = (connect "d1" "u" "p" "url" true ⟨[], 0⟩).2
       ∧ (((connect "d1" "u" "p" "url" true ⟨[], 0⟩).2).connections.map Prod.fst).Nodup) :=
  ⟨by decide, by decide,
   C8_connect_reuses_connection "d1" "u" "p" "url" "u2" "p2" "url2" true false ⟨[], 0⟩ 0
     (by decide) (by decide)⟩

/-! ## Claim C9 — ingestion of a nested JSON payload -/

/-- **C9**: ingesting `{"a":{"b":1},"c":[1,2]}` for a device against an
empty telemetry store upserts exactly the keys `a.b` (type `"number"`) and
`c` (type `"array"`) — the nested object is recursed into, the array becomes
a single key — and writes exactly one value row per key: `"1"` for `a.b` and
the serialized array `"[1,2]"` for `c`. -/
theorem C9_nested_payload_ingestion :
    processDeviceData "device1" "sensors/data" "\x7b\"a\":\x7b\"b\":1\x7d,\"c\":[1,2]\x7d"
      (some (Json.obj [("a", Json.obj [("b", Json.num 1)]), ("c", Json.arr [Json.num 1, Json.num 2])]))
      0 emptyDb
    = ⟨[⟨0, "device1", "a.b", "number"⟩, ⟨1, "device1", "c", "array"⟩],
       [⟨"device1", 0, "1", 0⟩, ⟨"device1", 1, "[1,2]", 0⟩], 2⟩ := by decide

/-! ## Claim C10 — the truthiness branch of ingestion -/

/-- **C10** (counterexample): as stated the claim is false — the payload
`"abc"` (the five characters `"abc"` including the quotes) parses to the
truthy non-object string `abc`, yet ingestion does *not* produce zero keys:
`Object.entries` on a primitive string enumerates its character indices, so
three keys `0`, `1`, `2` of type `"string"` and three value rows are
written. -/
theorem C10_counterexample_truthy_string :
    jsTruthy (Json.str "abc") = true ∧ jsTypeof (Json.str "abc") ≠ "object"
    ∧ processDeviceData "device1" "x/y" "\"abc\"" (some (Json.str "abc")) 0 emptyDb
      = ⟨[⟨0, "device1", "0", "string"⟩, ⟨1, "device1", "1", "string"⟩, ⟨2, "device1", "2", "string"⟩],
         [⟨"device1", 0, "a", 0⟩, ⟨"device1", 1, "b", 0⟩, ⟨"device1", 2, "c", 0⟩], 3⟩ :=
  ⟨by decide, by decide, by decide⟩

/-- **C10** (amended): the branch is decided by parse success *and*
truthiness.  A payload parsing to a truthy non-object, non-string value
(a non-zero number such as `"123"`, or `true`) produces zero telemetry keys
and zero value rows; a payload parsing to a falsy value (`"null"`,
`"false"`, `"0"`) is treated exactly like non-JSON text: the raw payload is
stored under the topic-derived key of type `"string"`.  (A truthy *string*
enumerates its character indices instead — see the counterexample.) -/
theorem C10_truthiness_branch_amended :
    (∀ n : Int, n ≠ 0 →
        processDeviceData "device1" "x/y" (toString n) (some (Json.num n)) 0 emptyDb = emptyDb)
    ∧ processDeviceData "device1" "x/y" "true" (some (Json.bool true)) 0 emptyDb = emptyDb
    ∧ processDeviceData "device1" "x/y" "null" (some Json.null) 0 emptyDb
        = ⟨[⟨0, "device1", "x.y", "string"⟩], [⟨"device1", 0, "null", 0⟩], 1⟩
    ∧ processDeviceData "device1" "x/y" "false" (some (Json.bool false)) 0 emptyDb
        = ⟨[⟨0, "device1", "x.y", "string"⟩], [⟨"device1", 0, "false", 0⟩], 1⟩
    ∧ processDeviceData "device1" "x/y" "0" (some (Json.num 0)) 0 emptyDb
        = ⟨[⟨0, "device1", "x.y", "string"⟩], [⟨"device1", 0, "0", 0⟩], 1⟩ := by
  refine ⟨?_, by decide, by decide, by decide, by decide⟩
  intro n hn
  have ht : jsTruthy (Json.num n) = true := by simp [jsTruthy, hn]
  simp [processDeviceData, ht, structuredIngest, extractKeysFromJson, jsEntries,
    processEntries, storeDeviceKeys, storeRows]

/-- Witness for C10 (amended): the numeric clause applied at `123`. -/
theorem C10_truthiness_branch_amended_witness :
    (123 : Int) ≠ 0
    ∧ processDeviceData "device1" "x/y" (toString (123 : Int)) (some (Json.num 123)) 0 emptyDb
        = emptyDb :=
  ⟨by decide, C10_truthiness_branch_amended.1 123 (by decide)⟩

/-! ## The processing-pass specification (shared by claims C1 and C6) -/

/-- `markPublished` preserves every record's id. -/
lemma markPublished_map_id (now : Int) (pubId : String) (store : List ScheduledPublication) :
    (markPublished now pubId store).map ScheduledPublication.id
      = store.map ScheduledPublication.id := by
  unfold markPublished
  rw [List.map_map]
  apply List.map_congr_left
  intro r _
  simp only [Function.comp_apply]
  split <;> rfl

/-- `markFailed` preserves every record's id. -/
lemma markFailed_map_id (pubId : String) (store : List ScheduledPublication) :
    (markFailed pubId store).map ScheduledPublication.id
      = store.map ScheduledPublication.id := by
  unfold markFailed
  rw [List.map_map]
  apply List.map_congr_left
  intro r _
  simp only [Function.comp_apply]
  split <;> rfl

/-- A record with a different id survives `markPublished` unchanged. -/
lemma mem_markPublished_of_ne (now : Int) (pubId : String)
    (store : List ScheduledPublication) (q : ScheduledPublication)
    (hq : q ∈ store) (hne : (q.id == pubId) = false) :
    q ∈ markPublished now pubId store := by
  have := List.mem_map_of_mem
    (fun r => if r.id == pubId then { r with status := PubStatus.PUBLISHED, publishedAt := some now } else r) hq
  simp only [hne, Bool.false_eq_true, if_false] at this
  simpa [markPublished] using this

/-- A record with a different id survives `markFailed` unchanged. -/
lemma mem_markFailed_of_ne (pubId : String)
    (store : List ScheduledPublication) (q : ScheduledPublication)
    (hq : q ∈ store) (hne : (q.id == pubId) = false) :
    q ∈ markFailed pubId store := by
  have := List.mem_map_of_mem
    (fun r => if r.id == pubId then { r with status := PubStatus.FAILED } else r) hq
  simp only [hne, Bool.false_eq_true, if_false] at this
  simpa [markFailed] using this

/-- In a table with duplicate-free ids, a record is determined by its id. -/
lemma eq_of_mem_of_id_eq {store : List ScheduledPublication}
    (hnodup : (store.map ScheduledPublication.id).Nodup)
    {a b : ScheduledPublication} (ha : a ∈ store) (hb : b ∈ store) (hid : a.id = b.id) :
    a = b :=
  List.inj_on_of_nodup_map hnodup ha hb hid

/-- The delivery loop, run on any duplicate-free batch of records taken from
a table with duplicate-free ids, adds one to the counter per successful
delivery and rewrites exactly the batch records — `PUBLISHED` on success,
`FAILED` on failure — leaving every other record untouched. -/
lemma processLoop_spec (deliver : ScheduledPublication → Bool) (now : Int) :
    ∀ (due : List ScheduledPublication), ∀ (store : List ScheduledPublication) (c : Nat),
      (store.map ScheduledPublication.id).Nodup →
      (due.map ScheduledPublication.id).Nodup →
      (∀ pub ∈ due, pub ∈ store) →
      processLoop deliver now due (c, store)
        = (c + (due.filter deliver).length,
           store.map (fun r =>
             if (due.map ScheduledPublication.id).contains r.id then
               (if deliver r then { r with status := PubStatus.PUBLISHED, publishedAt := some now }
                else { r with status := PubStatus.FAILED })
             else r)) := by
  intro due
  induction due with
  | nil =>
      intro store c _ _ _
      simp [processLoop, List.contains]
  | cons pub rest ih =>
      intro store c hnodup hdnodup hsub
      have hdn : pub.id ∉ rest.map ScheduledPublication.id
          ∧ (rest.map ScheduledPublication.id).Nodup := List.nodup_cons.mp hdnodup
      have hpubmem : pub ∈ store := hsub pub (List.mem_cons_self pub rest)
      have hrestsub : ∀ q ∈ rest, q ∈ store := fun q hq => hsub q (List.mem_cons_of_mem pub hq)
      have hne_of_mem : ∀ q ∈ rest, (q.id == pub.id) = false := by
        intro q hq
        apply beq_eq_false_iff_ne.mpr
        intro he
        exact hdn.1 (he ▸ List.mem_map_of_mem ScheduledPublication.id hq)
      have hunfold : processLoop deliver now (pub :: rest) (c, store)
          = if deliver pub then processLoop deliver now rest (c + 1, markPublished now pub.id store)
            else processLoop deliver now rest (c, markFailed pub.id store) := rfl
      by_cases hdel : deliver pub = true
      · rw [hunfold, if_pos hdel]
        rw [ih (markPublished now pub.id store) (c + 1)
            (by rw [markPublished_map_id]; exact hnodup)
            hdn.2
            (fun q hq => mem_markPublished_of_ne now pub.id store q (hrestsub q hq) (hne_of_mem q hq))]
        rw [List.filter_cons_of_pos hdel]
        refine Prod.ext ?_ ?_
        · simp only [List.length_cons]
          omega
        · unfold markPublished
          rw [List.map_map]
          apply List.map_congr_left
          intro r hr
          simp only [Function.comp_apply]
          by_cases hrid : (r.id == pub.id) = true
          · have hreq : r = pub :=
              eq_of_mem_of_id_eq hnodup hr hpubmem (by simpa using hrid)
            subst hreq
            have hc1 : ((rest.map ScheduledPublication.id).contains r.id) = false := by
              simp only [List.contains, List.elem_eq_mem, decide_eq_false_iff_not]
              exact hdn.1
            have hc2 : (((r :: rest).map ScheduledPublication.id).contains r.id) = true := by
              simp only [List.map_cons, List.contains_cons, beq_self_eq_true, Bool.true_or]
            simp only [beq_self_eq_true, if_true, hc1, hc2, Bool.false_eq_true, if_false, hdel]
          · have hridf : (r.id == pub.id) = false := by
              revert hrid; cases (r.id == pub.id) <;> simp
            simp only [hridf, Bool.false_eq_true, if_false, List.map_cons, List.contains_cons,
              Bool.false_or]
      · have hdelf : deliver pub = false := Bool.eq_false_iff.mpr hdel
        rw [hunfold, if_neg hdel]
        rw [ih (markFailed pub.id store) c
            (by rw [markFailed_map_id]; exact hnodup)
            hdn.2
            (fun q hq => mem_markFailed_of_ne pub.id store q (hrestsub q hq) (hne_of_mem q hq))]
        rw [List.filter_cons_of_neg hdel]
        refine Prod.ext ?_ ?_
        · rfl
        · unfold markFailed
          rw [List.map_map]
          apply List.map_congr_left
          intro r hr
          simp only [Function.comp_apply]
          by_cases hrid : (r.id == pub.id) = true
          · have hreq : r = pub :=
              eq_of_mem_of_id_eq hnodup hr hpubmem (by simpa using hrid)
            subst hreq
            have hc1 : ((rest.map ScheduledPublication.id).contains r.id) = false := by
              simp only [List.contains, List.elem_eq_mem, decide_eq_false_iff_not]
              exact hdn.1
            have hc2 : (((r :: rest).map ScheduledPublication.id).contains r.id) = true := by
              simp only [List.map_cons, List.contains_cons, beq_self_eq_true, Bool.true_or]
            simp only [beq_self_eq_true, if_true, hc1, hc2, Bool.false_eq_true, if_false, hdelf]
          · have hridf : (r.id == pub.id) = false := by
              revert hrid; cases (r.id == pub.id) <;> simp
            simp only [hridf, Bool.false_eq_true, if_false, List.map_cons, List.contains_cons,
              Bool.false_or]

/-- One `processScheduledPublications` pass on a table with duplicate-free
ids returns the number of successfully delivered due records and rewrites
the table pointwise by `finalizeRecord`. -/
lemma processScheduledPublications_spec (deliver : ScheduledPublication → Bool) (now : Int)
    (store : List ScheduledPublication)
    (hnodup : (store.map ScheduledPublication.id).Nodup) :
    processScheduledPublications deliver now store
      = (((dueOf now store).filter deliver).length,
         store.map (finalizeRecord deliver now)) := by
  unfold processScheduledPublications
  have hdnodup : ((dueOf now store).map ScheduledPublication.id).Nodup :=
    List.Nodup.sublist (List.Sublist.map _ (List.filter_sublist store)) hnodup
  have hsub : ∀ pub ∈ dueOf now store, pub ∈ store :=
    fun pub h => (List.mem_filter.mp h).1
  rw [processLoop_spec deliver now (dueOf now store) store 0 hnodup hdnodup hsub]
  refine Prod.ext (by simp) ?_
  show store.map _ = store.map _
  apply List.map_congr_left
  intro r hr
  by_cases hdue : isDue now r = true
  · have hmemdue : r ∈ dueOf now store := List.mem_filter.mpr ⟨hr, hdue⟩
    have hcont : (((dueOf now store).map ScheduledPublication.id).contains r.id) = true := by
      simp only [List.contains, List.elem_eq_mem, decide_eq_true_eq]
      exact List.mem_map_of_mem ScheduledPublication.id hmemdue
    rw [if_pos hcont]
    unfold finalizeRecord
    rw [if_pos hdue]
  · have hcont : (((dueOf now store).map ScheduledPublication.id).contains r.id) = false := by
      simp only [List.contains, List.elem_eq_mem, decide_eq_false_iff_not]
      intro hmem
      rcases List.mem_map.mp hmem with ⟨q, hq, hqid⟩
      have hqs : q ∈ store := (List.mem_filter.mp hq).1
      have hqdue : isDue now q = true := (List.mem_filter.mp hq).2
      have : q = r := eq_of_mem_of_id_eq hnodup hqs hr hqid
      exact hdue (this ▸ hqdue)
    rw [if_neg (by rw [hcont]; exact fun hc => Bool.false_ne_true hc)]
    unfold finalizeRecord
    rw [if_neg (by rw [Bool.eq_false_iff.mpr hdue]; exact fun hc => Bool.false_ne_true hc)]

/-- Filtering the element-wise zip of a list with its image under `f` counts
the same elements as filtering the list by the composed predicate. -/
lemma length_filter_zip_map {α : Type _} (f : α → α) (q : α × α → Bool) :
    ∀ l : List α, ((l.zip (l.map f)).filter q).length = (l.filter (fun a => q (a, f a))).length
  | [] => rfl
  | a :: l => by
      simp only [List.map_cons, List.zip_cons_cons, List.filter_cons]
      by_cases h : q (a, f a) = true
      · simp [h, length_filter_zip_map f q l]
      · simp [h, length_filter_zip_map f q l]

/-! ## Claim C1 — the pass counts exactly the `PUBLISHED` transitions -/

/-- **C1**: on a table with duplicate-free ids, one
`processScheduledPublications` pass returns exactly the number of records
whose status changed to `PUBLISHED` during the pass (pairing each record
with its post-pass version positionally): records whose delivery failed
become `FAILED` and are not counted, and records that were not due are not
touched, let alone counted. -/
theorem C1_count_published_transitions (deliver : ScheduledPublication → Bool) (now : Int)
    (store : List ScheduledPublication)
    (hnodup : (store.map ScheduledPublication.id).Nodup) :
    (processScheduledPublications deliver now store).1
      = ((store.zip (processScheduledPublications deliver now store).2).filter
          (fun p => !(p.1.status == PubStatus.PUBLISHED) && p.2.status == PubStatus.PUBLISHED)).length := by
  rw [processScheduledPublications_spec deliver now store hnodup]
  rw [length_filter_zip_map]
  simp only []
  unfold dueOf
  rw [List.filter_filter]
  congr 1
  apply List.filter_congr
  intro r _
  by_cases hdue : isDue now r = true
  · have hpend : r.status = PubStatus.PENDING := by
      unfold isDue at hdue
      have := (Bool.and_eq_true _ _).mp hdue
      simpa using this.2
    by_cases hdel : deliver r = true
    · simp [finalizeRecord, hdel, hdue, hpend]
    · simp [finalizeRecord, Bool.eq_false_iff.mpr hdel, hdue, hpend]
  · have hduef : isDue now r = false := Bool.eq_false_iff.mpr hdue
    simp [finalizeRecord, hduef, Bool.not_and_self]

/-- Witness for C1: a four-record table — one due record delivered, one due
record failing, one not yet due, one already published — counted at `1`. -/
theorem C1_count_published_transitions_witness :
    (([samplePendingPub1, samplePendingPub2, sampleLatePub, samplePublishedPub].map
        ScheduledPublication.id).Nodup)
    ∧ (processScheduledPublications sampleDeliver 100
        [samplePendingPub1, samplePendingPub2, sampleLatePub, samplePublishedPub]).1
      = ((([samplePendingPub1, samplePendingPub2, sampleLatePub, samplePublishedPub].zip
            (processScheduledPublications sampleDeliver 100
              [samplePendingPub1, samplePendingPub2, sampleLatePub, samplePublishedPub]).2)).filter
          (fun p => !(p.1.status == PubStatus.PUBLISHED) && p.2.status == PubStatus.PUBLISHED)).length :=
  ⟨by decide,
   C1_count_published_transitions sampleDeliver 100
     [samplePendingPub1, samplePendingPub2, sampleLatePub, samplePublishedPub] (by decide)⟩

/-! ## Claim C6 — one record's failure never aborts the batch -/

/-- **C6**: during a single pass on a table with duplicate-free ids, if the
due record at position `i` fails to deliver, that record — and only its own
outcome — is written back as `FAILED`, and *every* due record in the table
still receives its own outcome: `PUBLISHED` with `publishedAt = now` when
its delivery succeeds, `FAILED` when it fails.  No failure aborts the rest
of the batch. -/
theorem C6_failure_does_not_abort_batch (deliver : ScheduledPublication → Bool) (now : Int)
    (store : List ScheduledPublication)
    (hnodup : (store.map ScheduledPublication.id).Nodup)
    (i : Nat) (pub : ScheduledPublication)
    (hget : store.get? i = some pub)
    (hdue : isDue now pub = true)
    (hfail : deliver pub = false) :
    (processScheduledPublications deliver now store).2.get? i
        = some { pub with status := PubStatus.FAILED }
    ∧ ∀ (j : Nat) (q : ScheduledPublication), store.get? j = some q → isDue now q = true →
        (processScheduledPublications deliver now store).2.get? j
          = some (if deliver q then { q with status := PubStatus.PUBLISHED, publishedAt := some now }
                  else { q with status := PubStatus.FAILED }) := by
  have h2 : (processScheduledPublications deliver now store).2
      = store.map (finalizeRecord deliver now) := by
    rw [processScheduledPublications_spec deliver now store hnodup]
  constructor
  · rw [h2, List.get?_map, hget, Option.map_some']
    unfold finalizeRecord
    rw [if_pos hdue, if_neg (by rw [hfail]; exact fun hc => Bool.false_ne_true hc)]
  · intro j q hq hdq
    rw [h2, List.get?_map, hq, Option.map_some']
    congr 1
    unfold finalizeRecord
    rw [if_pos hdq]

/-- Witness for C6: position `1` of the three-record table fails, position
`0` is still published and position `2` untouched. -/
theorem C6_failure_does_not_abort_batch_witness :
    (([samplePendingPub1, samplePendingPub2, sampleLatePub].map ScheduledPublication.id).Nodup)
    ∧ [samplePendingPub1, samplePendingPub2, sampleLatePub].get? 1 = some samplePendingPub2
    ∧ isDue 100 samplePendingPub2 = true
    ∧ sampleDeliver samplePendingPub2 = false
    ∧ ((processScheduledPublications sampleDeliver 100
          [samplePendingPub1, samplePendingPub2, sampleLatePub]).2.get? 1
        = some { samplePendingPub2 with status := PubStatus.FAILED }
       ∧ ∀ (j : Nat) (q : ScheduledPublication),
          [samplePendingPub1, samplePendingPub2, sampleLatePub].get? j = some q →
          isDue 100 q = true →
          (processScheduledPublications sampleDeliver 100
              [samplePendingPub1, samplePendingPub2, sampleLatePub]).2.get? j
            = some (if sampleDeliver q then { q with status := PubStatus.PUBLISHED, publishedAt := some 100 }
                    else { q with status := PubStatus.FAILED })) :=
  ⟨by decide, by decide, by decide, by decide,
   C6_failure_does_not_abort_batch sampleDeliver 100
     [samplePendingPub1, samplePendingPub2, sampleLatePub] (by decide) 1 samplePendingPub2
     (by decide) (by decide) (by decide)⟩

/-! ## Claim C2 — update applies only the provided fields -/

/-- A successful `scheduledTimeStep` leaves the environment alone and
assembles the payload from the DTO fields, the scheduled time being the
parse of a provided non-empty string. -/
lemma scheduledTimeStep_ok (parseDate : String → Option Int) (dto : UpdateDto)
    (topicIdOpt : Option Nat) (env : TopicEnv) (upd : UpdatePayload) (env' : TopicEnv)
    (h : scheduledTimeStep parseDate dto topicIdOpt env = (.ok upd, env')) :
    upd = ⟨topicIdOpt, dto.payload, dto.qos, dto.retain,
           dto.scheduledTime.bind (fun s => if s == "" then none else parseDate s)⟩
    ∧ env' = env := by
  unfold scheduledTimeStep at h
  split at h
  next s hst =>
    rw [hst]
    split at h
    next hs =>
      simp only [Prod.mk.injEq, Except.ok.injEq] at h
      refine ⟨?_, h.2.symm⟩
      rw [← h.1]
      simp [Option.bind, hs]
    next hs =>
      have hsf : (s == "") = false := by
        revert hs; cases (s == "") <;> simp
      split at h
      next hp =>
        simp at h
      next t hp =>
        simp only [Prod.mk.injEq, Except.ok.injEq] at h
        refine ⟨?_, h.2.symm⟩
        rw [← h.1]
        simp [Option.bind, hsf, hp]
  next hst =>
    rw [hst]
    simp only [Prod.mk.injEq, Except.ok.injEq] at h
    exact ⟨h.1.symm, h.2.symm⟩

/-- A successful `computeUpdatePayload` carries the DTO's `payload`, `qos`
and `retain` fields verbatim, parses the scheduled time as
`scheduledTimeStep` does, and assigns no topic id when none was provided. -/
lemma computeUpdatePayload_ok (parseDate : String → Option Int) (dto : UpdateDto)
    (existing : ScheduledPublication) (env : TopicEnv) (upd : UpdatePayload) (env' : TopicEnv)
    (h : computeUpdatePayload parseDate dto existing env = (.ok upd, env')) :
    upd.payload = dto.payload ∧ upd.qos = dto.qos ∧ upd.retain = dto.retain
    ∧ upd.scheduledTime = dto.scheduledTime.bind (fun s => if s == "" then none else parseDate s)
    ∧ (dto.topicPath = none → upd.topicId = none) := by
  unfold computeUpdatePayload at h
  split at h
  next e env₁ heq =>
    simp at h
  next topicIdOpt env₁ heq =>
    have htid : dto.topicPath = none → topicIdOpt = none := by
      intro htp
      unfold topicChangeStep at heq
      rw [htp] at heq
      simp only [Prod.mk.injEq, Except.ok.injEq] at heq
      exact heq.1.symm
    split at h
    next q hq =>
      split at h
      next hrange =>
        simp at h
      next hrange =>
        obtain ⟨hupd, _⟩ := scheduledTimeStep_ok parseDate dto topicIdOpt env₁ upd env' h
        subst hupd
        exact ⟨rfl, rfl, rfl, rfl, fun htp => htid htp⟩
    next hq =>
      obtain ⟨hupd, _⟩ := scheduledTimeStep_ok parseDate dto topicIdOpt env₁ upd env' h
      subst hupd
      exact ⟨rfl, rfl, rfl, rfl, fun htp => htid htp⟩

/-- **C2** (counterexample): as stated the claim is false — updating an
existing scheduled publication whose status is `FAILED` (not `PUBLISHED`)
with a new QoS succeeds but leaves the status `FAILED`: the update function
never resets the status to `PENDING` nor touches `publishedAt` (the
`status: "PENDING", publishedAt: null` reset exists only in the
schedule-with-existing-id path of `schedulePublication`). -/
theorem C2_counterexample_status_not_reset :
    sampleFailedPub.status ≠ PubStatus.PUBLISHED
    ∧ (updateScheduledPublication (fun _ => none) "p1" { qos := some 1 } sampleTopicEnv
        [sampleFailedPub]).1
      = .ok (⟨"p1", "d", 0, "x", 1, false, 50, .FAILED, none⟩ : ScheduledPublication)
    ∧ (⟨"p1", "d", 0, "x", 1, false, 50, .FAILED, none⟩ : ScheduledPublication).status
        ≠ PubStatus.PENDING :=
  ⟨by decide, by decide, by decide⟩

/-- **C2** (amended): for every existing scheduled publication whose status
is not `PUBLISHED`, a successful `updateScheduledPublication` applies *only*
the provided fields — payload, QoS, retain and (when parseable and
non-empty) the scheduled time, with an unchanged topic when no topic path is
provided — and leaves `status` and `publishedAt` exactly as they were: no
reset to `PENDING`, no clearing of `publishedAt`. -/
theorem C2_update_applies_only_provided_fields (parseDate : String → Option Int)
    (id : String) (dto : UpdateDto) (env : TopicEnv) (store : List ScheduledPublication)
    (sp updated : ScheduledPublication) (env' : TopicEnv) (store' : List ScheduledPublication)
    (hid : jsTrim id ≠ "")
    (hfind : store.find? (fun r => r.id == jsTrim id) = some sp)
    (hnp : sp.status ≠ PubStatus.PUBLISHED)
    (hok : updateScheduledPublication parseDate id dto env store = (.ok updated, env', store')) :
    updated.status = sp.status
    ∧ updated.publishedAt = sp.publishedAt
    ∧ updated.id = sp.id ∧ updated.deviceId = sp.deviceId
    ∧ updated.payload = dto.payload.getD sp.payload
    ∧ updated.qos = dto.qos.getD sp.qos
    ∧ updated.retain = dto.retain.getD sp.retain
    ∧ updated.scheduledTime
        = (dto.scheduledTime.bind (fun s => if s == "" then none else parseDate s)).getD
            sp.scheduledTime
    ∧ (dto.topicPath = none → updated.topicId = sp.topicId) := by
  have hidb : (jsTrim id == "") = false := beq_eq_false_iff_ne.mpr hid
  have hsb : (sp.status == PubStatus.PUBLISHED) = false := beq_eq_false_iff_ne.mpr hnp
  unfold updateScheduledPublication at hok
  rw [hidb] at hok
  simp only [Bool.false_eq_true, if_false] at hok
  rw [hfind] at hok
  simp only [hsb, Bool.false_eq_true, if_false] at hok
  split at hok
  next e env₁ heq =>
    simp at hok
  next upd env₁ heq =>
    split at hok
    next hemp =>
      simp at hok
    next hemp =>
      simp only [Prod.mk.injEq, Except.ok.injEq] at hok
      obtain ⟨hrec, _, _⟩ := hok
      obtain ⟨hp, hq, hr, hs, ht⟩ := computeUpdatePayload_ok parseDate dto sp env upd env₁ heq
      subst hrec
      refine ⟨rfl, rfl, rfl, rfl, ?_, ?_, ?_, ?_, ?_⟩
      · show (applyUpdate upd sp).payload = dto.payload.getD sp.payload
        unfold applyUpdate
        rw [hp]
      · show (applyUpdate upd sp).qos = dto.qos.getD sp.qos
        unfold applyUpdate
        rw [hq]
      · show (applyUpdate upd sp).retain = dto.retain.getD sp.retain
        unfold applyUpdate
        rw [hr]
      · show (applyUpdate upd sp).scheduledTime = _
        unfold applyUpdate
        rw [hs]
      · intro htp
        show (applyUpdate upd sp).topicId = sp.topicId
        unfold applyUpdate
        rw [ht htp]
        rfl

/-- Witness for C2 (amended): the concrete failed record updated with a new
QoS keeps its `FAILED` status, its `publishedAt`, and every unprovided
field. -/
theorem C2_update_applies_only_provided_fields_witness :
    jsTrim "p1" ≠ ""
    ∧ [sampleFailedPub].find? (fun r => r.id == jsTrim "p1") = some sampleFailedPub
    ∧ sampleFailedPub.status ≠ PubStatus.PUBLISHED
    ∧ updateScheduledPublication (fun _ => none) "p1" { qos := some 1 } sampleTopicEnv
        [sampleFailedPub]
      = (.ok (⟨"p1", "d", 0, "x", 1, false, 50, .FAILED, none⟩ : ScheduledPublication),
         sampleTopicEnv, [⟨"p1", "d", 0, "x", 1, false, 50, .FAILED, none⟩])
    ∧ ((⟨"p1", "d", 0, "x", 1, false, 50, .FAILED, none⟩ : ScheduledPublication).status
          = sampleFailedPub.status
       ∧ (⟨"p1", "d", 0, "x", 1, false, 50, .FAILED, none⟩ : ScheduledPublication).publishedAt
          = sampleFailedPub.publishedAt
       ∧ (⟨"p1", "d", 0, "x", 1, false, 50, .FAILED, none⟩ : ScheduledPublication).id
          = sampleFailedPub.id
       ∧ (⟨"p1", "d", 0, "x", 1, false, 50, .FAILED, none⟩ : ScheduledPublication).deviceId
          = sampleFailedPub.deviceId
       ∧ (⟨"p1", "d", 0, "x", 1, false, 50, .FAILED, none⟩ : ScheduledPublication).payload
          = (({ qos := some 1 } : UpdateDto).payload.getD sampleFailedPub.payload)
       ∧ (⟨"p1", "d", 0, "x", 1, false, 50, .FAILED, none⟩ : ScheduledPublication).qos
          = (({ qos := some 1 } : UpdateDto).qos.getD sampleFailedPub.qos)
       ∧ (⟨"p1", "d", 0, "x", 1, false, 50, .FAILED, none⟩ : ScheduledPublication).retain
          = (({ qos := some 1 } : UpdateDto).retain.getD sampleFailedPub.retain)
       ∧ (⟨"p1", "d", 0, "x", 1, false, 50, .FAILED, none⟩ : ScheduledPublication).scheduledTime
          = ((({ qos := some 1 } : UpdateDto).scheduledTime.bind
                (fun s => if s == "" then none else (fun _ => none : String → Option Int) s)).getD
              sampleFailedPub.scheduledTime)
       ∧ (({ qos := some 1 } : UpdateDto).topicPath = none →
            (⟨"p1", "d", 0, "x", 1, false, 50, .FAILED, none⟩ : ScheduledPublication).topicId
              = sampleFailedPub.topicId)) :=
  ⟨by decide, by decide, by decide, by decide,
   C2_update_applies_only_provided_fields (fun _ => none) "p1" { qos := some 1 } sampleTopicEnv
     [sampleFailedPub] sampleFailedPub
     (⟨"p1", "d", 0, "x", 1, false, 50, .FAILED, none⟩ : ScheduledPublication)
     sampleTopicEnv [⟨"p1", "d", 0, "x", 1, false, 50, .FAILED, none⟩]
     (by decide) (by decide) (by decide) (by decide)⟩

end ZeleneGateway
